import Mathlib

/-!
Verification development for the StockMate-Chess server core.

The definitions below are a shallow embedding of the move-broker /
engine-adapter code in `src/server/src/index.ts` and of the realtime
presence/challenge WebSocket handler (the variant of the server with the
`wss.on('connection')` handler).  JavaScript objects used as maps are
modelled as association lists with JS object update/delete semantics,
JS numbers that can be NaN are modelled by the `JsNum` type over `ℚ`,
and the fallible adapter functions (which `throw` in the source) are
modelled with `Except String`.
-/

namespace StockMate

/-- A JavaScript number that may be NaN (the result of `parseFloat` on a
non-numeric string).  Finite values are modelled as rationals. -/
inductive JsNum where
  | num (q : ℚ)
  | nan
deriving DecidableEq

/-- Division by 100 on `JsNum` (NaN / 100 = NaN in JS). -/
def jsDiv100 : JsNum → JsNum
  | JsNum.num q => JsNum.num (q / 100)
  | JsNum.nan => JsNum.nan

/-- Numeric value of a list of decimal digit characters. -/
def digitsVal (ds : List Char) : ℕ :=
  ds.foldl (fun a c => a * 10 + (c.toNat - 48)) 0

/-- Sign handling of `parseFloat`: a leading `-` or `+` is consumed. -/
def stripSign (l : List Char) : ℚ × List Char :=
  match l with
  | [] => (1, [])
  | c :: r => if c = '-' then (-1, r) else if c = '+' then (1, r) else (1, c :: r)

/-- Fraction-part handling of `parseFloat`: digits after a leading dot. -/
def fracPart (l : List Char) : List Char :=
  match l with
  | [] => []
  | c :: r => if c = '.' then r.takeWhile Char.isDigit else []

/-- Model of the JS builtin `parseFloat` restricted to the shapes that occur
here: an optional sign, integer digits and an optional fraction part.  If no
digit is found the result is NaN, exactly as `parseFloat` behaves on a
non-numeric string such as "abc". -/
def jsParseFloat (s : String) : JsNum :=
  let p := stripSign s.data
  let ip := p.2.takeWhile Char.isDigit
  let fp := fracPart (p.2.dropWhile Char.isDigit)
  if ip.isEmpty && fp.isEmpty then JsNum.nan
  else JsNum.num (p.1 * ((digitsVal ip : ℚ) + (digitsVal fp : ℚ) / (10 : ℚ) ^ fp.length))

/-- The move object produced by the rules engine (`chess.js` `move()`),
restricted to the fields the server uses. -/
structure MoveObj where
  fromSq : String
  toSq : String
  promo : Option String
deriving DecidableEq

/-- One element of the `result.info` array returned by the engine wrapper:
either a plain string line (`typeof item` is not `'object'`) or an object
with an optional `score.value` field. -/
inductive InfoLine where
  | str (s : String)
  | obj (score : Option String)
deriving DecidableEq

/-- The result of `engine.go(...)`: a best-move string and the stream of
search-info lines. -/
structure GoResult where
  bestmove : String
  info : List InfoLine
deriving DecidableEq

/-- Evaluation extraction of `getStockfishMove` / `getStockfishEvaluation`:
take the last element of `result.info`; if it is an object with a `score`,
the evaluation is `parseFloat(score.value) / 100`, otherwise 0. -/
def lastScoreEval (info : List InfoLine) : JsNum :=
  match info.getLast? with
  | some (InfoLine.obj (some v)) => jsDiv100 (jsParseFloat v)
  | _ => JsNum.num 0

/-- Embedding of `getStockfishMove` (src/server/src/index.ts, lines 96-124).
`applyRules` stands for the rules-engine application `new Chess(board)` plus
`chess.move(candidate)`, returning `none` when the candidate is illegal; the
subprocess conversation is summarised by its `GoResult`. -/
def getStockfishMove (applyRules : String → String → Option MoveObj)
    (board : String) (r : GoResult) : Except String (MoveObj × JsNum) :=
  match applyRules board r.bestmove with
  | none => Except.error "Invalid move suggested by Stockfish"
  | some m => Except.ok (m, lastScoreEval r.info)

/-- Embedding of `getStockfishEvaluation` (lines 180-199): same score
extraction, with every failure path degrading to 0. -/
def getStockfishEvaluation (r : GoResult) : JsNum :=
  lastScoreEval r.info

/-- The three-way (plus unexpected) response of the remote ChessTune
service to `GET /get_move`. -/
inductive TuneResp where
  | gameOver (result : String)
  | okMove (san : String) (newFen : String)
  | errorResp (message : Option String)
  | other
deriving DecidableEq

/-- Embedding of `getChessTuneMove` (lines 132-178).  A `game_over` status
throws `Error("Game over: " + result)`; an `ok` status converts the SAN move
via the rules engine (failing with `Invalid move received from ChessTune`)
and composes with the engine adapter (`evalFn`) to score the new position;
an `error` status throws `data.message || 'Unknown error from ChessTune'`
(the empty string is falsy in JS). -/
def getChessTuneMove (applyRules : String → String → Option MoveObj)
    (evalFn : String → JsNum) (board : String) (resp : TuneResp) :
    Except String (MoveObj × JsNum) :=
  match resp with
  | TuneResp.gameOver result => Except.error ("Game over: " ++ result)
  | TuneResp.okMove san newFen =>
      match applyRules board san with
      | none => Except.error "Invalid move received from ChessTune"
      | some m =>
          Except.ok ({ fromSq := m.fromSq, toSq := m.toSq, promo := m.promo }, evalFn newFen)
  | TuneResp.errorResp message =>
      match message with
      | some msg =>
          if msg = "" then Except.error "Unknown error from ChessTune" else Except.error msg
      | none => Except.error "Unknown error from ChessTune"
  | TuneResp.other => Except.error "Unexpected response from ChessTune"

/-- Embedding of `getNextMove` (lines 201-212): dispatch by opponent kind. -/
def getNextMove (applyRules : String → String → Option MoveObj)
    (engRes : GoResult) (evalFn : String → JsNum) (tuneResp : TuneResp)
    (board opponent : String) : Except String (MoveObj × JsNum) :=
  if opponent = "stockfish" then getStockfishMove applyRules board engRes
  else if opponent = "chess_tune" then getChessTuneMove applyRules evalFn board tuneResp
  else if opponent = "human" then Except.error "Human moves should be handled client-side"
  else Except.error "Invalid opponent type"

/-- Prepend a character to the first chunk of a split (helper for the model
of the JS `String.prototype.split(': ')`). -/
def consHead (c : Char) : List (List Char) → List (List Char)
  | [] => [[c]]
  | h :: t => (c :: h) :: t

/-- Model of `s.split(': ')` on the character list of `s`: scan left to
right, cutting at every (non-overlapping) occurrence of `": "`. -/
def splitCS : List Char → List (List Char)
  | [] => [[]]
  | ':' :: ' ' :: rest => [] :: splitCS rest
  | c :: rest => consHead c (splitCS rest)

/-- Whether the list contains an occurrence of the separator `": "`. -/
def hasCS : List Char → Bool
  | [] => false
  | ':' :: ' ' :: _ => true
  | _ :: rest => hasCS rest

/-- JS `s.split(': ')` as a list of strings. -/
def jsSplitColonSpace (s : String) : List String :=
  (splitCS s.data).map fun l => String.mk l

/-- JS `s.startsWith(p)`. -/
def jsStartsWith (p s : String) : Bool :=
  p.data.isPrefixOf s.data

/-- The observable outcome of the `/api/get_move` route: a 200 response with
move and evaluation, a 200 response with `{error: <result>}` (the game-over
short circuit, where the payload is `message.split(': ')[1]`, possibly
`undefined`, modelled by `Option`), or a 500 response with a generic error
message. -/
inductive ApiResult where
  | okMove (m : MoveObj) (evaluation : JsNum)
  | gameOverResp (result : Option String)
  | serverError (message : String)
deriving DecidableEq

/-- The catch-block of `/api/get_move` (lines 227-236): an error whose
message starts with `"Game over"` becomes the 200 game-over response
carrying `message.split(': ')[1]`; every other error becomes a 500. -/
def classifyGetMoveError (msg : String) : ApiResult :=
  if jsStartsWith "Game over" msg then
    ApiResult.gameOverResp ((jsSplitColonSpace msg)[1]?)
  else ApiResult.serverError msg

/-- Embedding of the `/api/get_move` handler (lines 215-237), with the
backend conversations (`engRes`, `tuneResp`, `evalFn`) and the rules engine
supplied as the environment. -/
def handleGetMove (applyRules : String → String → Option MoveObj)
    (engRes : GoResult) (evalFn : String → JsNum) (tuneResp : TuneResp)
    (board : String) (currentOpponent : Option String) : ApiResult :=
  match currentOpponent with
  | none => classifyGetMoveError "No opponent selected. Please start a new game first."
  | some opp =>
      match getNextMove applyRules engRes evalFn tuneResp board opp with
      | Except.ok (m, e) => ApiResult.okMove m e
      | Except.error msg => classifyGetMoveError msg

/-! ### The realtime presence/challenge server

Embedding of the `wss.on('connection')` handler, the `ws.on('message')`
and `ws.on('close')` handlers, and `broadcastOnlineUsers`.  The JS objects
`onlineUsers` (connection-uuid key to `{id, username}` value) and
`wsClients` (username key to socket value) are modelled as association
lists with JS object semantics (`objGet`, `objSet`, `objDelKey`); sockets
are identified by a `Nat` connection id. -/

/-- JS object property read `obj[k]`. -/
def objGet (k : String) : List (String × α) → Option α
  | [] => none
  | (k', v) :: rest => if k' = k then some v else objGet k rest

/-- JS object property write `obj[k] = v`: replaces in place or appends. -/
def objSet (k : String) (v : α) : List (String × α) → List (String × α)
  | [] => [(k, v)]
  | (k', v') :: rest => if k' = k then (k, v) :: rest else (k', v') :: objSet k v rest

/-- JS `delete obj[k]`. -/
def objDelKey (k : String) (l : List (String × α)) : List (String × α) :=
  l.filter fun p => decide (p.1 ≠ k)

/-- Deduplication keeping the first occurrence, as a JS `Set` built from the
`JSON.stringify` images of the entries does in `broadcastOnlineUsers`. -/
def dedupFirst [DecidableEq α] (seen : List α) : List α → List α
  | [] => []
  | a :: rest => if a ∈ seen then dedupFirst seen rest else a :: dedupFirst (a :: seen) rest

/-- Messages a client can send over the WebSocket. -/
inductive WsMsg where
  | login (username : String)
  | challenge (fromU toU : String)
  | challengeResponse (fromU toU : String) (accepted : Bool)
deriving DecidableEq

/-- Messages the server sends to a socket. -/
inductive OutMsg where
  | onlineUsersMsg (users : List (String × String))
  | challengeReceived (fromU : String)
  | challengeResponseMsg (fromU toU : String) (accepted : Bool)
  | startGame (opponent : String)
deriving DecidableEq

/-- One live (or closed) WebSocket connection: its socket identity, the
uuid `userId` generated at connection time, the handler-closure variable
`username`, and its readyState. -/
structure Conn where
  cid : ℕ
  userId : String
  uname : Option String
  isOpen : Bool
deriving DecidableEq

/-- The server state touched by the realtime handlers. -/
structure SState where
  onlineUsers : List (String × String)
  wsClients : List (String × ℕ)
  conns : List Conn
deriving DecidableEq

/-- The events driving the realtime server. -/
inductive Event where
  | connect (cid : ℕ) (userId : String)
  | message (cid : ℕ) (m : WsMsg)
  | close (cid : ℕ)
deriving DecidableEq

def findConn (conns : List Conn) (cid : ℕ) : Option Conn :=
  conns.find? fun c => c.cid == cid

def connOpen (conns : List Conn) (cid : ℕ) : Bool :=
  match findConn conns cid with
  | some c => c.isOpen
  | none => false

def setUname (cid : ℕ) (u : String) (conns : List Conn) : List Conn :=
  conns.map fun c => if c.cid = cid then { c with uname := some u } else c

def markClosed (cid : ℕ) (conns : List Conn) : List Conn :=
  conns.map fun c => if c.cid = cid then { c with isOpen := false } else c

/-- `broadcastOnlineUsers`: send the deduplicated presence list to every
open socket. -/
def broadcast (s : SState) : List (ℕ × OutMsg) :=
  (s.conns.filter fun c => c.isOpen).map fun c =>
    (c.cid, OutMsg.onlineUsersMsg (dedupFirst [] s.onlineUsers))

/-- The `login` branch of the message handler: evict every presence entry
with the same username (deleting `wsClients[username]` whenever at least one
entry matched), record the username in the handler closure, insert the new
entry keyed by the connection uuid, register the socket, broadcast. -/
def loginStep (c : Conn) (uname : String) (s : SState) : SState × List (ℕ × OutMsg) :=
  let matched := s.onlineUsers.any fun p => p.2 == uname
  let ou0 := s.onlineUsers.filter fun p => decide (p.2 ≠ uname)
  let wc0 := if matched then objDelKey uname s.wsClients else s.wsClients
  let s' : SState :=
    { onlineUsers := objSet c.userId uname ou0
      wsClients := objSet uname c.cid wc0
      conns := setUname c.cid uname s.conns }
  (s', broadcast s')

/-- One event of the realtime server.  `connect` registers the socket and
immediately sends it the current (raw, non-deduplicated) presence list;
`message` dispatches on the parsed message type exactly as the untyped
conditional chain in the source does; `close` marks the socket closed and,
when the connection had logged in, deletes `onlineUsers[username]` and
`wsClients[username]` and broadcasts. -/
def step (s : SState) : Event → SState × List (ℕ × OutMsg)
  | Event.connect cid uid =>
      ({ s with conns := s.conns ++ [⟨cid, uid, none, true⟩] },
       [(cid, OutMsg.onlineUsersMsg s.onlineUsers)])
  | Event.message cid m =>
      match findConn s.conns cid with
      | none => (s, [])
      | some c =>
          match m with
          | WsMsg.login uname => loginStep c uname s
          | WsMsg.challenge fromU toU =>
              match objGet toU s.wsClients with
              | some tcid =>
                  if connOpen s.conns tcid then (s, [(tcid, OutMsg.challengeReceived fromU)])
                  else (s, [])
              | none => (s, [])
          | WsMsg.challengeResponse fromU toU accepted =>
              match objGet toU s.wsClients with
              | some ccid =>
                  if connOpen s.conns ccid then
                    (s, (ccid, OutMsg.challengeResponseMsg fromU toU accepted) ::
                        (if accepted then
                          [(ccid, OutMsg.startGame fromU), (cid, OutMsg.startGame fromU)]
                         else []))
                  else (s, [])
              | none => (s, [])
  | Event.close cid =>
      match findConn s.conns cid with
      | none => (s, [])
      | some c =>
          let conns' := markClosed cid s.conns
          match c.uname with
          | none => ({ s with conns := conns' }, [])
          | some u =>
              let s' : SState :=
                { onlineUsers := objDelKey u s.onlineUsers
                  wsClients := objDelKey u s.wsClients
                  conns := conns' }
              (s', broadcast s')

/-- The empty initial server state. -/
def initState : SState := ⟨[], [], []⟩

/-- Run a sequence of events from the initial state, accumulating every
message sent. -/
def runWS (evs : List Event) : SState × List (ℕ × OutMsg) :=
  evs.foldl (fun acc e => ((step acc.1 e).1, acc.2 ++ (step acc.1 e).2)) (initState, [])

/-- The server state after a sequence of events. -/
def runState (evs : List Event) : SState :=
  evs.foldl (fun s e => (step s e).1) initState

/-- Whether a username has an open socket registered in `wsClients` — the
exact test `targetWs && targetWs.readyState === WebSocket.OPEN` performed by
the `challenge` branch. -/
def hasOpenClient (s : SState) (u : String) : Bool :=
  match objGet u s.wsClients with
  | some t => connOpen s.conns t
  | none => false

/-- Number of `start_game` messages delivered to socket `c` in an output
batch. -/
def countStartTo (outs : List (ℕ × OutMsg)) (c : ℕ) : ℕ :=
  (outs.filter fun p =>
    p.1 == c && (match p.2 with | OutMsg.startGame _ => true | _ => false)).length

/-! ### Search-depth configuration and the engine conversation -/

/-- The process-wide mutable `searchDepth` variable. -/
structure EngineConfig where
  searchDepth : ℤ
deriving DecidableEq

/-- Outcome of `/api/set-depth`: 200 `{success:true}` or 400
`{success:false, error:'Invalid depth value'}`. -/
inductive DepthResp where
  | ok
  | invalid
deriving DecidableEq

/-- Embedding of the `/api/set-depth` handler (lines 80-89): the body value
is `some d` when `typeof depth === 'number'` and `none` otherwise; only a
positive value is stored. -/
def setDepthHandler (body : Option ℤ) (s : EngineConfig) : EngineConfig × DepthResp :=
  match body with
  | some d => if 0 < d then ({ searchDepth := d }, DepthResp.ok) else (s, DepthResp.invalid)
  | none => (s, DepthResp.invalid)

/-- A command written to the engine subprocess. -/
inductive EngineCmd where
  | position (fen : String)
  | go (depth : ℤ)
deriving DecidableEq

/-- The engine commands issued by one `getStockfishMove` /
`getStockfishEvaluation` call: `engine.position(board)` then
`engine.go({depth: searchDepth})` with the current stored depth. -/
def engineSearchCmds (s : EngineConfig) (board : String) : List EngineCmd :=
  [EngineCmd.position board, EngineCmd.go s.searchDepth]

/-! ### Interleaving of concurrent engine requests (C9)

`getStockfishMove` performs `await engine.position(...)` followed by
`await engine.go(...)`; each `await` is a point where the single-threaded
event loop may run another handler.  A request `i` is therefore a sequence
of three engine-conversation actions, and — because the code guards the
shared handle with no queue or busy flag — a concurrent execution of two
requests can realise any order-preserving interleaving of their action
sequences. -/

/-- The engine-conversation actions of request `rid`: the position command
is sent, the go command is sent, the bestmove reply arrives. -/
inductive Act where
  | position (rid : ℕ)
  | goCmd (rid : ℕ)
  | bestmove (rid : ℕ)
deriving DecidableEq

/-- The action trace of a single `getStockfishMove` call. -/
def engineCallTrace (rid : ℕ) : List Act :=
  [Act.position rid, Act.goCmd rid, Act.bestmove rid]

/-- `Shuffle xs ys zs`: `zs` is an order-preserving interleaving of `xs`
and `ys`. -/
inductive Shuffle : List Act → List Act → List Act → Prop where
  | nil : Shuffle [] [] []
  | left : Shuffle xs ys zs → Shuffle (x :: xs) ys (x :: zs)
  | right : Shuffle xs ys zs → Shuffle xs (y :: ys) (y :: zs)

/-- How many of the requests `rids` are in flight after the action
sequence `pre`: a request is in flight once its position command is out
and its bestmove reply has not yet arrived. -/
def inFlightCount (rids : List ℕ) (pre : List Act) : ℕ :=
  (rids.filter fun i =>
    decide (pre.count (Act.bestmove i) < pre.count (Act.position i))).length

/-- The at-most-one-in-flight discipline over a whole trace: at every
point of the trace at most one request is in flight. -/
def atMostOneInFlight (rids : List ℕ) (t : List Act) : Bool :=
  (List.range (t.length + 1)).all fun k => decide (inFlightCount rids (t.take k) ≤ 1)

/-! ### Helpers for the game-over result payload (C1) -/

/-- The first `": "`-separated chunk of a string (what `split(': ')[1]`
recovers of the result once the `"Game over"` tag is removed). -/
def firstChunk (s : String) : String :=
  String.mk ((splitCS s.data).headD [])

/-- The usernames of a presence list. -/
def usernames (l : List (String × String)) : List String :=
  l.map Prod.snd

/-- The presence-map invariant: no two entries share a username. -/
def InvPres (s : SState) : Prop :=
  (s.onlineUsers.map Prod.snd).Nodup

example : jsParseFloat "abc" = JsNum.nan := by
  simp [jsParseFloat, stripSign, fracPart, List.takeWhile, List.dropWhile]

example : jsParseFloat "-35" = JsNum.num (-35) := by
  simp [jsParseFloat, stripSign, fracPart, digitsVal, List.takeWhile, List.dropWhile]

example : jsSplitColonSpace "Game over: a: b" = ["Game over", "a", "b"] := by rfl

example : jsStartsWith "Game over" "Game over: 1-0" = true := by rfl

/-! ### Helper lemmas -/

lemma consHead_ne_nil (c : Char) (l : List (List Char)) : consHead c l ≠ [] := by
  cases l <;> simp [consHead]

lemma splitCS_ne_nil (l : List Char) : splitCS l ≠ [] := by
  unfold splitCS
  split <;> simp [consHead_ne_nil]

lemma jsSplit_head (r : String) : (jsSplitColonSpace r)[0]? = some (firstChunk r) := by
  unfold jsSplitColonSpace firstChunk
  rcases h : splitCS r.data with _ | ⟨a, t⟩
  · exact absurd h (splitCS_ne_nil r.data)
  · simp

lemma splitCS_no_sep (l : List Char) (h : hasCS l = false) : splitCS l = [l] := by
  induction l with
  | nil => rfl
  | cons c rest ih =>
      by_cases hsep : ∃ rest1, c = ':' ∧ rest = ' ' :: rest1
      · obtain ⟨r1, hc, hr⟩ := hsep
        subst hc; subst hr
        rw [hasCS.eq_2] at h
        exact absurd h (by simp)
      · have hcond : ∀ rest1, c = ':' → rest = ' ' :: rest1 → False := fun r1 hc hr =>
          hsep ⟨r1, hc, hr⟩
        rw [hasCS.eq_3 c rest hcond] at h
        rw [splitCS.eq_3 c rest hcond, ih h]
        rfl

lemma firstChunk_no_sep (r : String) (h : hasCS r.data = false) : firstChunk r = r := by
  unfold firstChunk
  rw [splitCS_no_sep r.data h]
  cases r
  rfl

/-! ### C1 : game_over responses through /api/get_move -/

/-- C1, counterexample.  The claim says a `game_over` response yields a
game-over outcome carrying the result.  For the result `"a: b"` the
outcome carries only `"a"`: the handler recovers the payload by
`message.split(': ')[1]`, which truncates any result containing the
separator `": "`. -/
theorem C1_result_truncated_cex :
    handleGetMove (fun _ _ => none) ⟨"", []⟩ (fun _ => JsNum.num 0)
      (TuneResp.gameOver "a: b") "board" (some "chess_tune")
      = ApiResult.gameOverResp (some "a") ∧ ("a" : String) ≠ "a: b" :=
  ⟨rfl, by decide⟩

/-- C1, amended.  A remote-service response with status `game_over` always
produces the game-over outcome of `/api/get_move` (an HTTP 200 carrying a
result payload), never the generic 500 failure, for every environment and
every result string; the payload is the first `": "`-separated chunk of the
result, which is the whole result whenever the result contains no `": "`. -/
theorem C1_game_over_distinguished (applyRules : String → String → Option MoveObj)
    (engRes : GoResult) (evalFn : String → JsNum) (board r : String) :
    handleGetMove applyRules engRes evalFn (TuneResp.gameOver r) board (some "chess_tune")
      = ApiResult.gameOverResp (some (firstChunk r))
    ∧ (hasCS r.data = false → firstChunk r = r) := by
  constructor
  · have h0 : handleGetMove applyRules engRes evalFn (TuneResp.gameOver r) board
        (some "chess_tune") = classifyGetMoveError ("Game over: " ++ r) := rfl
    rw [h0]
    unfold classifyGetMoveError
    rw [show jsStartsWith "Game over" ("Game over: " ++ r) = true from rfl]
    rw [show jsSplitColonSpace ("Game over: " ++ r) = "Game over" :: jsSplitColonSpace r
        from rfl]
    simp only [if_true]
    simp only [List.getElem?_cons_succ]
    rw [jsSplit_head]
  · exact firstChunk_no_sep r

/-- C1 witness: at the concrete result `"1-0"` the outcome is the game-over
response carrying the full result. -/
theorem C1_game_over_distinguished_witness :
    handleGetMove (fun _ _ => none) ⟨"", []⟩ (fun _ => JsNum.num 0)
      (TuneResp.gameOver "1-0") "board" (some "chess_tune")
      = ApiResult.gameOverResp (some "1-0") := by
  have h := C1_game_over_distinguished (fun _ _ => none) ⟨"", []⟩ (fun _ => JsNum.num 0)
    "board" "1-0"
  rw [h.1, h.2 (by rfl)]

/-! ### C2 : the challenge-accept handshake -/

/-- C2, counterexample.  With both users logged in, a challenge followed by
one accepted response delivers exactly one `start_game` to the challenger
(socket 1); but a second identical accepted response delivers a further
one — the total for the run with the duplicated response is 2 on each
socket, while the claim requires the second response to produce none. -/
theorem C2_second_accept_cex :
    countStartTo (runWS
      [Event.connect 1 "u1", Event.message 1 (WsMsg.login "alice"),
       Event.connect 2 "u2", Event.message 2 (WsMsg.login "bob"),
       Event.message 1 (WsMsg.challenge "alice" "bob"),
       Event.message 2 (WsMsg.challengeResponse "bob" "alice" true)]).2 1 = 1
    ∧ countStartTo (runWS
      [Event.connect 1 "u1", Event.message 1 (WsMsg.login "alice"),
       Event.connect 2 "u2", Event.message 2 (WsMsg.login "bob"),
       Event.message 1 (WsMsg.challenge "alice" "bob"),
       Event.message 2 (WsMsg.challengeResponse "bob" "alice" true),
       Event.message 2 (WsMsg.challengeResponse "bob" "alice" true)]).2 1 = 2
    ∧ countStartTo (runWS
      [Event.connect 1 "u1", Event.message 1 (WsMsg.login "alice"),
       Event.connect 2 "u2", Event.message 2 (WsMsg.login "bob"),
       Event.message 1 (WsMsg.challenge "alice" "bob"),
       Event.message 2 (WsMsg.challengeResponse "bob" "alice" true),
       Event.message 2 (WsMsg.challengeResponse "bob" "alice" true)]).2 2 = 2 :=
  ⟨rfl, rfl, rfl⟩

/-- C2, amended.  An accepted `challenge_response` whose addressee has an
open socket delivers exactly one `start_game` to each party together with
the response echo, and leaves the server state unchanged — the coordinator
keeps no per-pair challenge state, so a second identical accepted response
(starting from the same, unchanged state) delivers a further `start_game`
pair rather than none. -/
theorem C2_accept_delivers_start_game (s : SState) (cid ccid : ℕ) (c : Conn)
    (fromU toU : String)
    (hfind : findConn s.conns cid = some c)
    (hcl : objGet toU s.wsClients = some ccid)
    (hopen : connOpen s.conns ccid = true)
    (hne : ccid ≠ cid) :
    step s (Event.message cid (WsMsg.challengeResponse fromU toU true))
      = (s, [(ccid, OutMsg.challengeResponseMsg fromU toU true),
             (ccid, OutMsg.startGame fromU), (cid, OutMsg.startGame fromU)])
    ∧ countStartTo
        (step s (Event.message cid (WsMsg.challengeResponse fromU toU true))).2 ccid = 1
    ∧ countStartTo
        (step s (Event.message cid (WsMsg.challengeResponse fromU toU true))).2 cid = 1 := by
  have hstep : step s (Event.message cid (WsMsg.challengeResponse fromU toU true))
      = (s, [(ccid, OutMsg.challengeResponseMsg fromU toU true),
             (ccid, OutMsg.startGame fromU), (cid, OutMsg.startGame fromU)]) := by
    simp [step, hfind, hcl, hopen]
  refine ⟨hstep, ?_, ?_⟩
  · rw [hstep]
    simp [countStartTo, Ne.symm hne]
  · rw [hstep]
    simp [countStartTo, hne]

/-- C2 witness: the concrete alice/bob scenario, at the state reached after
both logins and the challenge. -/
theorem C2_accept_delivers_start_game_witness :
    step (runState
      [Event.connect 1 "u1", Event.message 1 (WsMsg.login "alice"),
       Event.connect 2 "u2", Event.message 2 (WsMsg.login "bob"),
       Event.message 1 (WsMsg.challenge "alice" "bob")])
      (Event.message 2 (WsMsg.challengeResponse "bob" "alice" true))
      = (runState
          [Event.connect 1 "u1", Event.message 1 (WsMsg.login "alice"),
           Event.connect 2 "u2", Event.message 2 (WsMsg.login "bob"),
           Event.message 1 (WsMsg.challenge "alice" "bob")],
         [(1, OutMsg.challengeResponseMsg "bob" "alice" true),
          (1, OutMsg.startGame "bob"), (2, OutMsg.startGame "bob")]) :=
  (C2_accept_delivers_start_game
    (runState
      [Event.connect 1 "u1", Event.message 1 (WsMsg.login "alice"),
       Event.connect 2 "u2", Event.message 2 (WsMsg.login "bob"),
       Event.message 1 (WsMsg.challenge "alice" "bob")])
    2 1 ⟨2, "u2", some "bob", true⟩ "bob" "alice" rfl rfl rfl (by decide)).1

/-! ### C4 : connection-close cleanup -/

/-- C4: the close handler does not remove the presence entry and still
broadcasts.  Connection 1 (uuid "u1") logs in as "alice", a second socket
is open, then connection 1 closes: the handler executes
`delete onlineUsers['alice']`, but the entry is keyed by the uuid "u1", so
it survives — and the broadcast still fires, advertising "alice" to the
remaining socket.  The claim (and the intent witnessed by the HTTP logout
route, which looks the key up by username value) requires the entry to be
removed and the broadcast to happen only upon actual removal. -/
theorem C4_close_leaves_entry_and_broadcasts :
    (step (runState [Event.connect 1 "u1", Event.message 1 (WsMsg.login "alice"),
        Event.connect 2 "u2"]) (Event.close 1)).1.onlineUsers = [("u1", "alice")]
    ∧ (step (runState [Event.connect 1 "u1", Event.message 1 (WsMsg.login "alice"),
        Event.connect 2 "u2"]) (Event.close 1)).2
      = [(2, OutMsg.onlineUsersMsg [("u1", "alice")])] :=
  ⟨rfl, rfl⟩

/-! ### C10 : the initial presence message on connect -/

/-- C10: processing a `connection` event sends exactly one message, to the
new socket only, of type `onlineUsers`, carrying the current presence list
(`Object.values(onlineUsers)`), and does not change the presence map; the
message handlers of the socket only run on later events, so this happens
before any client message, login included. -/
theorem C10_initial_presence_sent (s : SState) (cid : ℕ) (uid : String) :
    (step s (Event.connect cid uid)).2 = [(cid, OutMsg.onlineUsersMsg s.onlineUsers)]
    ∧ (step s (Event.connect cid uid)).1.onlineUsers = s.onlineUsers :=
  ⟨rfl, rfl⟩

/-! ### C3 : no duplicate usernames in the presence list -/

lemma mem_snd_objSet (x k v : String) (l : List (String × String))
    (hx : x ∈ (objSet k v l).map Prod.snd) : x = v ∨ x ∈ l.map Prod.snd := by
  induction l with
  | nil =>
      simp only [objSet, List.map_cons, List.map_nil, List.mem_cons,
        List.not_mem_nil, or_false] at hx
      exact Or.inl hx
  | cons p rest ih =>
      obtain ⟨k', v'⟩ := p
      by_cases hk : k' = k
      · rw [show objSet k v ((k', v') :: rest) = (k, v) :: rest from by simp [objSet, hk]] at hx
        simp only [List.map_cons, List.mem_cons] at hx ⊢
        rcases hx with h | h
        · exact Or.inl h
        · exact Or.inr (Or.inr h)
      · rw [show objSet k v ((k', v') :: rest) = (k', v') :: objSet k v rest from by
            simp [objSet, hk]] at hx
        simp only [List.map_cons, List.mem_cons] at hx ⊢
        rcases hx with h | h
        · exact Or.inr (Or.inl h)
        · rcases ih h with h2 | h2
          · exact Or.inl h2
          · exact Or.inr (Or.inr h2)

lemma nodup_snd_objSet (k v : String) (l : List (String × String))
    (hv : v ∉ l.map Prod.snd) (h : (l.map Prod.snd).Nodup) :
    ((objSet k v l).map Prod.snd).Nodup := by
  induction l with
  | nil => simp [objSet]
  | cons p rest ih =>
      obtain ⟨k', v'⟩ := p
      simp only [List.map_cons, List.mem_cons, List.nodup_cons] at hv h
      push_neg at hv
      obtain ⟨hv1, hv2⟩ := hv
      obtain ⟨h1, h2⟩ := h
      by_cases hk : k' = k
      · rw [show objSet k v ((k', v') :: rest) = (k, v) :: rest from by simp [objSet, hk]]
        simp only [List.map_cons, List.nodup_cons]
        exact ⟨hv2, h2⟩
      · rw [show objSet k v ((k', v') :: rest) = (k', v') :: objSet k v rest from by
            simp [objSet, hk]]
        simp only [List.map_cons, List.nodup_cons]
        refine ⟨?_, ih hv2 h2⟩
        intro hmem
        rcases mem_snd_objSet v' k v rest hmem with h3 | h3
        · exact hv1 h3.symm
        · exact h1 h3

lemma nodup_snd_filter (p : String × String → Bool) (l : List (String × String))
    (h : (l.map Prod.snd).Nodup) : ((l.filter p).map Prod.snd).Nodup :=
  List.Nodup.sublist ((l.filter_sublist).map Prod.snd) h

lemma not_mem_snd_filter_ne (v : String) (l : List (String × String)) :
    v ∉ ((l.filter fun p => decide (p.2 ≠ v)).map Prod.snd) := by
  intro hmem
  simp [List.mem_filter] at hmem

lemma step_challenge_state (s : SState) (cid : ℕ) (f t : String) :
    (step s (Event.message cid (WsMsg.challenge f t))).1 = s := by
  cases hf : findConn s.conns cid with
  | none => simp [step, hf]
  | some c =>
      cases hg : objGet t s.wsClients with
      | none => simp [step, hf, hg]
      | some tcid => cases hob : connOpen s.conns tcid <;> simp [step, hf, hg, hob]

lemma step_challenge_response_state (s : SState) (cid : ℕ) (f t : String) (a : Bool) :
    (step s (Event.message cid (WsMsg.challengeResponse f t a))).1 = s := by
  cases hf : findConn s.conns cid with
  | none => simp [step, hf]
  | some c =>
      cases hg : objGet t s.wsClients with
      | none => simp [step, hf, hg]
      | some tcid => cases hob : connOpen s.conns tcid <;> simp [step, hf, hg, hob]

lemma invPres_step (s : SState) (e : Event) (h : InvPres s) : InvPres (step s e).1 := by
  cases e with
  | connect cid uid => exact h
  | message cid m =>
      cases m with
      | login uname =>
          cases hf : findConn s.conns cid with
          | none => simpa [step, hf] using h
          | some c =>
              have hred : (step s (Event.message cid (WsMsg.login uname))).1
                  = (loginStep c uname s).1 := by simp [step, hf]
              rw [hred]
              unfold loginStep InvPres
              exact nodup_snd_objSet c.userId uname _
                (not_mem_snd_filter_ne uname s.onlineUsers)
                (nodup_snd_filter _ s.onlineUsers h)
      | challenge f t => rw [InvPres, step_challenge_state]; exact h
      | challengeResponse f t a => rw [InvPres, step_challenge_response_state]; exact h
  | close cid =>
      cases hf : findConn s.conns cid with
      | none => simpa [step, hf] using h
      | some c =>
          cases hu : c.uname with
          | none => simpa [step, hf, hu] using h
          | some u =>
              have hred : (step s (Event.close cid)).1.onlineUsers
                  = objDelKey u s.onlineUsers := by simp [step, hf, hu]
              rw [InvPres, hred]
              exact nodup_snd_filter _ s.onlineUsers h

lemma dedupFirst_sublist [DecidableEq α] (seen : List α) (l : List α) :
    (dedupFirst seen l).Sublist l := by
  induction l generalizing seen with
  | nil => simp [dedupFirst]
  | cons a rest ih =>
      unfold dedupFirst
      by_cases hmem : a ∈ seen
      · simp only [if_pos hmem]
        exact (ih seen).cons a
      · simp only [if_neg hmem]
        exact (ih (a :: seen)).cons₂ a

/-- C3: after every sequence of WebSocket events (connect, login or other
messages, close) starting from the empty server, the presence map holds no
two entries with the same username; consequently neither the raw value list
sent on connect nor the deduplicated broadcast payload lists a username
twice.  The login branch removes every same-username entry before
inserting the new one, and no other branch adds entries. -/
theorem C3_presence_usernames_nodup (evs : List Event) :
    (usernames (runState evs).onlineUsers).Nodup
    ∧ (usernames (dedupFirst [] (runState evs).onlineUsers)).Nodup := by
  have main : ∀ (l : List Event) (s : SState), InvPres s →
      InvPres (l.foldl (fun s e => (step s e).1) s) := by
    intro l
    induction l with
    | nil => intro s h; exact h
    | cons e rest ih => intro s h; exact ih _ (invPres_step s e h)
  have h1 : InvPres (runState evs) := main evs initState (by simp [InvPres, initState])
  refine ⟨h1, ?_⟩
  exact List.Nodup.sublist ((dedupFirst_sublist [] _).map Prod.snd) h1

/-! ### C5 : the evaluation comes from the last info line -/

/-- C5, counterexample.  With a present but unparseable score string on the
last info line, the request still succeeds with the move, but the
evaluation is NaN (`parseFloat('abc') / 100`), not the 0 the claim
requires for an unparseable score. -/
theorem C5_nan_not_zero_cex :
    getStockfishMove (fun _ _ => some ⟨"e2", "e4", none⟩) "fen"
      ⟨"e2e4", [InfoLine.obj (some "abc")]⟩
      = Except.ok (⟨"e2", "e4", none⟩, JsNum.nan)
    ∧ JsNum.nan ≠ JsNum.num 0 :=
  ⟨rfl, fun h => nomatch h⟩

/-- C5, amended.  The evaluation returned with a move is the score of the
last emitted info line divided by 100, whatever earlier lines said; a
missing score (no score field, a non-object last line, or an empty info
stream) degrades to evaluation 0 with the request still succeeding; a
present but unparseable score yields evaluation NaN — not 0 — with the
request still succeeding. -/
theorem C5_last_score_eval (applyRules : String → String → Option MoveObj)
    (board bm : String) (earlier : List InfoLine) (m : MoveObj) (v : String) (q : ℚ)
    (hm : applyRules board bm = some m) :
    getStockfishMove applyRules board ⟨bm, earlier ++ [InfoLine.obj (some v)]⟩
      = Except.ok (m, jsDiv100 (jsParseFloat v))
    ∧ (jsParseFloat v = JsNum.num q →
        getStockfishMove applyRules board ⟨bm, earlier ++ [InfoLine.obj (some v)]⟩
          = Except.ok (m, JsNum.num (q / 100)))
    ∧ (jsParseFloat v = JsNum.nan →
        getStockfishMove applyRules board ⟨bm, earlier ++ [InfoLine.obj (some v)]⟩
          = Except.ok (m, JsNum.nan))
    ∧ getStockfishMove applyRules board ⟨bm, earlier ++ [InfoLine.obj none]⟩
      = Except.ok (m, JsNum.num 0)
    ∧ getStockfishMove applyRules board ⟨bm, earlier ++ [InfoLine.str v]⟩
      = Except.ok (m, JsNum.num 0)
    ∧ getStockfishMove applyRules board ⟨bm, ([] : List InfoLine)⟩
      = Except.ok (m, JsNum.num 0) := by
  refine ⟨?_, ?_, ?_, ?_, ?_, ?_⟩
  · simp [getStockfishMove, lastScoreEval, hm, List.getLast?_concat]
  · intro hv
    simp [getStockfishMove, lastScoreEval, hm, List.getLast?_concat, hv, jsDiv100]
  · intro hv
    simp [getStockfishMove, lastScoreEval, hm, List.getLast?_concat, hv, jsDiv100]
  · simp [getStockfishMove, lastScoreEval, hm, List.getLast?_concat]
  · simp [getStockfishMove, lastScoreEval, hm, List.getLast?_concat]
  · simp [getStockfishMove, lastScoreEval, hm]

/-- C5 witness: with info lines scoring "50" then "-35", the move request
succeeds and the evaluation is the last score over 100. -/
theorem C5_last_score_eval_witness :
    getStockfishMove (fun _ _ => some ⟨"e2", "e4", none⟩) "fen"
      ⟨"e2e4", [InfoLine.obj (some "50"), InfoLine.obj (some "-35")]⟩
      = Except.ok (⟨"e2", "e4", none⟩, JsNum.num (-35 / 100)) :=
  (C5_last_score_eval (fun _ _ => some ⟨"e2", "e4", none⟩) "fen" "e2e4"
    [InfoLine.obj (some "50")] ⟨"e2", "e4", none⟩ "-35" (-35) rfl).2.1
    (by simp [jsParseFloat, stripSign, fracPart, digitsVal, List.takeWhile, List.dropWhile])

/-! ### C6 : search-depth updates -/

/-- C6: a non-positive (or non-numeric) depth leaves the stored depth
unchanged and reports invalidity; a positive depth is stored and reported
valid; every engine search issues `go` with the currently stored depth, so
subsequent searches after a successful update use the new value. -/
theorem C6_depth_validation (s : EngineConfig) (d : ℤ) (board : String) :
    (d ≤ 0 → setDepthHandler (some d) s = (s, DepthResp.invalid))
    ∧ setDepthHandler none s = (s, DepthResp.invalid)
    ∧ (0 < d → setDepthHandler (some d) s = ({ searchDepth := d }, DepthResp.ok))
    ∧ engineSearchCmds s board = [EngineCmd.position board, EngineCmd.go s.searchDepth]
    ∧ (0 < d → engineSearchCmds (setDepthHandler (some d) s).1 board
        = [EngineCmd.position board, EngineCmd.go d]) := by
  refine ⟨?_, rfl, ?_, rfl, ?_⟩
  · intro h
    simp [setDepthHandler, not_lt.mpr h]
  · intro h
    simp [setDepthHandler, h]
  · intro h
    simp [setDepthHandler, engineSearchCmds, h]

/-- C6 witness: depth 0 is rejected leaving 10 stored; depth 3 is accepted
and the next search goes to depth 3. -/
theorem C6_depth_validation_witness :
    setDepthHandler (some 0) ⟨10⟩ = (⟨10⟩, DepthResp.invalid)
    ∧ setDepthHandler (some 3) ⟨10⟩ = (⟨3⟩, DepthResp.ok)
    ∧ engineSearchCmds (setDepthHandler (some 3) ⟨10⟩).1 "fen"
      = [EngineCmd.position "fen", EngineCmd.go 3] :=
  ⟨(C6_depth_validation ⟨10⟩ 0 "fen").1 (by decide),
   (C6_depth_validation ⟨10⟩ 3 "fen").2.2.1 (by decide),
   (C6_depth_validation ⟨10⟩ 3 "fen").2.2.2.2 (by decide)⟩

/-! ### C7 : returned moves are legal by construction -/

/-- C7: for both adapters, a returned move is exactly the result of a
successful rules-engine application of the backend candidate to the input
position (so re-applying it to that position succeeds by construction),
and an illegal candidate makes the request fail instead of returning a
move. -/
theorem C7_returned_moves_validated (applyRules : String → String → Option MoveObj)
    (board san newFen : String) (engRes : GoResult) (evalFn : String → JsNum) :
    (∀ m e, getStockfishMove applyRules board engRes = Except.ok (m, e) →
        applyRules board engRes.bestmove = some m)
    ∧ (applyRules board engRes.bestmove = none →
        getStockfishMove applyRules board engRes
          = Except.error "Invalid move suggested by Stockfish")
    ∧ (∀ m e, getChessTuneMove applyRules evalFn board (TuneResp.okMove san newFen)
          = Except.ok (m, e) → applyRules board san = some m)
    ∧ (applyRules board san = none →
        getChessTuneMove applyRules evalFn board (TuneResp.okMove san newFen)
          = Except.error "Invalid move received from ChessTune") := by
  refine ⟨?_, ?_, ?_, ?_⟩
  · intro m e h
    unfold getStockfishMove at h
    rcases ha : applyRules board engRes.bestmove with _ | m0
    · rw [ha] at h
      cases h
    · rw [ha] at h
      simp at h
      rw [h.1]
  · intro h
    unfold getStockfishMove
    rw [h]
  · intro m e h
    simp only [getChessTuneMove] at h
    rcases ha : applyRules board san with _ | m0
    · rw [ha] at h
      cases h
    · rw [ha] at h
      simp at h
      exact congrArg some h.1
  · intro h
    simp only [getChessTuneMove, h]

/-- C7 witness: a rules engine accepting the engine candidate; the success
outcome forces the rules-engine application to succeed on that candidate. -/
theorem C7_returned_moves_validated_witness :
    (fun (_ _ : String) => some (⟨"e2", "e4", none⟩ : MoveObj)) "fen" "e2e4"
      = some ⟨"e2", "e4", none⟩ :=
  (C7_returned_moves_validated (fun _ _ => some ⟨"e2", "e4", none⟩) "fen" "x" "y"
    ⟨"e2e4", []⟩ (fun _ => JsNum.num 0)).1 ⟨"e2", "e4", none⟩ (JsNum.num 0) rfl

/-! ### C8 : challenging an absent user is silently dropped -/

/-- C8: if the challenged username has no open socket registered, the
challenge message produces no outgoing message at all — nothing to the
target, no error back to the initiator — and leaves the state unchanged. -/
theorem C8_challenge_absent_target_dropped (s : SState) (cid : ℕ) (fromU toU : String)
    (h : hasOpenClient s toU = false) :
    step s (Event.message cid (WsMsg.challenge fromU toU)) = (s, []) := by
  unfold hasOpenClient at h
  cases hf : findConn s.conns cid with
  | none => simp [step, hf]
  | some c =>
      cases hg : objGet toU s.wsClients with
      | none => simp [step, hf, hg]
      | some t =>
          rw [hg] at h
          simp at h
          simp [step, hf, hg, h]

/-- C8 witness: alice is logged in, bob is not; alice's challenge to bob
produces no output and no state change. -/
theorem C8_challenge_absent_target_dropped_witness :
    step (runState [Event.connect 1 "u1", Event.message 1 (WsMsg.login "alice")])
      (Event.message 1 (WsMsg.challenge "alice" "bob"))
      = (runState [Event.connect 1 "u1", Event.message 1 (WsMsg.login "alice")], []) :=
  C8_challenge_absent_target_dropped _ 1 "alice" "bob" rfl

/-! ### C9 : engine requests are not serialized -/

/-- C9, counterexample.  The trace interleaving two `getStockfishMove`
calls position-position-go-bestmove-go-bestmove is an admissible
interleaving of their engine conversations (the code takes no lock and
queues nothing between its `await`s), and it has both requests in flight
after the second position command — violating at-most-one-in-flight. -/
theorem C9_two_in_flight_cex :
    Shuffle (engineCallTrace 0) (engineCallTrace 1)
      [Act.position 0, Act.position 1, Act.goCmd 0,
       Act.bestmove 0, Act.goCmd 1, Act.bestmove 1]
    ∧ atMostOneInFlight [0, 1]
        [Act.position 0, Act.position 1, Act.goCmd 0,
         Act.bestmove 0, Act.goCmd 1, Act.bestmove 1] = false :=
  ⟨Shuffle.left (Shuffle.right (Shuffle.left (Shuffle.left
      (Shuffle.right (Shuffle.right Shuffle.nil))))),
   by decide⟩

/-- C9, amended.  A single request respects at-most-one-in-flight on its
own, but the design enforces no serialization: there is an admissible
interleaving of two concurrent requests on the shared handle with two
requests in flight at once (the code relies on callers not overlapping,
contrary to the claim). -/
theorem C9_engine_requests_not_serialized :
    atMostOneInFlight [0, 1] (engineCallTrace 0) = true
    ∧ ∃ t, Shuffle (engineCallTrace 0) (engineCallTrace 1) t
        ∧ atMostOneInFlight [0, 1] t = false :=
  ⟨by decide,
   ⟨[Act.position 0, Act.position 1, Act.goCmd 0,
     Act.bestmove 0, Act.goCmd 1, Act.bestmove 1],
    Shuffle.left (Shuffle.right (Shuffle.left (Shuffle.left
      (Shuffle.right (Shuffle.right Shuffle.nil))))),
    by decide⟩⟩

end StockMate
